import Mathlib

/-!
Verification development for the excel_agent analysis core
(intent parser, hybrid retriever, query plan compiler, lineage reconciler).

Each Lean definition below is a shallow embedding of the Python function of
the same name in `src/excel_agent/backend/services/...`.  Python strings are
modelled as `String`, Python dicts as insertion-ordered association lists
`List (String × String)` (lookup = first matching key, which agrees with
Python dicts because insertion via `insertKV` keeps keys unique), Python
floats as `ℚ` (all arithmetic appearing in the modelled code is exact on
rationals), and Python `Optional`/truthiness as `Option` plus explicit
truthiness helpers (`optTruthy`, empty string and `None` are falsy).
-/

namespace ExcelAgent

/-! ## String helpers (Python `in`, `str.lower`, digit scanning) -/

/-- Boolean list-prefix test on characters (`==` on `Char`). -/
def chPrefix : List Char → List Char → Bool
  | [], _ => true
  | _ :: _, [] => false
  | a :: as, b :: bs => a == b && chPrefix as bs

/-- Boolean contiguous-sublist test: Python `needle in hay` on strings. -/
def chInfix : List Char → List Char → Bool
  | needle, [] => chPrefix needle []
  | needle, h :: t => chPrefix needle (h :: t) || chInfix needle t

/-- Python `needle in hay` (substring containment). -/
def strContains (hay needle : String) : Bool :=
  chInfix needle.data hay.data

/-- Python `s.lower()` (faithful on the ASCII/CJK strings the code matches). -/
def strLower (s : String) : String :=
  ⟨s.data.map Char.toLower⟩

/-- Does the question contain a CJK character (Python `re.search r'[一-鿿]'`,
i.e. code points 0x4e00–0x9fff)? Used by `detect_language`. -/
def hasCJK (s : String) : Bool :=
  s.data.any (fun c => 0x4e00 ≤ c.val && c.val ≤ 0x9fff)

/-- Maximal runs of ASCII decimal digits, left to right
(Python `re.findall r'\d+'`). `acc` holds the current run reversed. -/
def digitRunsAux : List Char → List Char → List String
  | [], acc => if acc.isEmpty then [] else [⟨acc.reverse⟩]
  | c :: rest, acc =>
    if c.isDigit then digitRunsAux rest (c :: acc)
    else if acc.isEmpty then digitRunsAux rest []
    else ⟨acc.reverse⟩ :: digitRunsAux rest []

/-- All maximal digit runs of a string, in order. -/
def digitRuns (s : String) : List String :=
  digitRunsAux s.data []

/-- Python `int` on a run of decimal digits. -/
def digitsToNat (s : String) : Nat :=
  s.data.foldl (fun n c => n * 10 + (c.toNat - '0'.toNat)) 0

/-- Non-overlapping left-to-right matches of the pattern `20\d{2}`
(Python `re.findall r'20\d{2}'`); after a match scanning resumes
after its last character. -/
def findYearsAux : Nat → List Char → List String
  | 0, _ => []
  | _ + 1, [] => []
  | fuel + 1, '2' :: '0' :: c :: d :: rest2 =>
    if c.isDigit && d.isDigit then
      String.mk ['2', '0', c, d] :: findYearsAux fuel rest2
    else
      findYearsAux fuel ('0' :: c :: d :: rest2)
  | fuel + 1, _ :: rest => findYearsAux fuel rest

/-- All `20\d{2}` matches of a string.  The fuel (one unit per character
consumed, of which there is at least one per step) makes the scan
structurally recursive; `s.data.length` units always suffice. -/
def findYears (s : String) : List String :=
  findYearsAux s.data.length s.data

/-! ## Dict helpers -/

/-- Python dict assignment `d[k] = v`: replace the value in place if the key
exists (keeping its position) else append at the end. -/
def insertKV : List (String × String) → String → String → List (String × String)
  | [], k, v => [(k, v)]
  | (k', v') :: rest, k, v =>
    if k' == k then (k', v) :: rest else (k', v') :: insertKV rest k v

/-- Python truthiness of an optional string: `None` and `""` are falsy. -/
def optTruthy : Option String → Bool
  | some s => !(s == "")
  | none => false

/-- Python `a or b` on optional strings: `a` if truthy, else `b`. -/
def pyOrS (a b : Option String) : Option String :=
  if optTruthy a then a else b

/-- Python truthiness of an optional list (`None` and `[]` are falsy). -/
def listTruthy {α : Type} : Option (List α) → Bool
  | some l => !l.isEmpty
  | none => false

/-- Insert `a` into `l` before the first element it may precede. -/
def insertBy {α : Type} (le : α → α → Bool) (a : α) : List α → List α
  | [] => [a]
  | b :: bs => if le a b then a :: b :: bs else b :: insertBy le a bs

/-- Stable insertion sort.  A stable sort's output is determined uniquely by
the total preorder, so this agrees element-for-element with Python's stable
`list.sort` under the corresponding comparison. -/
def sortBy {α : Type} (le : α → α → Bool) : List α → List α
  | [] => []
  | a :: as => insertBy le a (sortBy le as)

/-! ## Intent data model (`backend/services/intent/schema.py`) -/

inductive AggregationType
  | sum | mean | count | max | min | median
deriving DecidableEq, Repr

def AggregationType.value : AggregationType → String
  | .sum => "sum" | .mean => "mean" | .count => "count"
  | .max => "max" | .min => "min" | .median => "median"

inductive TrendFrequency
  | D | W | M | Q | Y
deriving DecidableEq, Repr

def TrendFrequency.value : TrendFrequency → String
  | .D => "D" | .W => "W" | .M => "M" | .Q => "Q" | .Y => "Y"

inductive VisualizationType
  | line | bar | pie | scatter | table
deriving DecidableEq, Repr

def VisualizationType.value : VisualizationType → String
  | .line => "line" | .bar => "bar" | .pie => "pie"
  | .scatter => "scatter" | .table => "table"

inductive SortOrder
  | asc | desc
deriving DecidableEq, Repr

def SortOrder.value : SortOrder → String
  | .asc => "asc" | .desc => "desc"

structure FilterCondition where
  column : String
  operator : String
  value : String
deriving DecidableEq, Repr

structure AggregationSpec where
  column : String
  operation : AggregationType
deriving DecidableEq, Repr

structure SortSpec where
  column : String
  order : SortOrder
deriving DecidableEq, Repr

structure TrendSpec where
  date_column : String
  frequency : TrendFrequency
  value_columns : List String
deriving DecidableEq, Repr

structure GrowthSpec where
  date_column : String
  value_column : String
  growth_type : String
deriving DecidableEq, Repr

structure TextAnalysisSpec where
  text_column : String
  extract_keywords : Bool
  topk : Nat
deriving DecidableEq, Repr

/-- Python `{'start': ..., 'end': ...}` date range; `end` may be `None`. -/
structure DateRange where
  start : Option String
  end_ : Option String
deriving DecidableEq, Repr

structure Intent where
  original_question : String
  language : String
  is_aggregation : Bool
  is_groupby : Bool
  is_trend : Bool
  is_ranking : Bool
  is_filtering : Bool
  is_growth : Bool
  is_text_analysis : Bool
  is_price_analysis : Bool
  filters : List FilterCondition
  groupby_columns : List String
  aggregations : List AggregationSpec
  sorts : List SortSpec
  trend : Option TrendSpec
  growth : Option GrowthSpec
  text_analysis : Option TextAnalysisSpec
  top_n : Option Nat
  limit : Option Nat
  preferred_viz : VisualizationType
  mentioned_columns : List String
  mentioned_values : List String
  date_range : Option DateRange
deriving DecidableEq, Repr

/-- Pydantic defaults of `Intent` (all flags false, empty lists, `None`s). -/
def Intent.default (question language : String) : Intent where
  original_question := question
  language := language
  is_aggregation := false
  is_groupby := false
  is_trend := false
  is_ranking := false
  is_filtering := false
  is_growth := false
  is_text_analysis := false
  is_price_analysis := false
  filters := []
  groupby_columns := []
  aggregations := []
  sorts := []
  trend := none
  growth := none
  text_analysis := none
  top_n := none
  limit := none
  preferred_viz := .table
  mentioned_columns := []
  mentioned_values := []
  date_range := none

/-! ## Intent parser (`backend/services/intent/parser.py`) -/

namespace IntentParser

def AGGREGATION_PATTERNS : List (AggregationType × List String) :=
  [ (.sum, ["总", "求和", "合计", "累计", "总计", "sum", "total"]),
    (.mean, ["平均", "均值", "average", "mean"]),
    (.count, ["计数", "统计", "数量", "个数", "count", "number of"]),
    (.max, ["最大", "最高", "最多", "max", "maximum", "highest"]),
    (.min, ["最小", "最低", "最少", "min", "minimum", "lowest"]) ]

def GROUPBY_PATTERNS : List String :=
  ["按", "分组", "各", "每个", "by", "per", "each", "group by"]

def TREND_PATTERNS : List String :=
  ["趋势", "变化", "走势", "trend", "change", "over time"]

def TIME_FREQ_PATTERNS : List (TrendFrequency × List String) :=
  [ (.D, ["日", "天", "day", "daily"]),
    (.W, ["周", "星期", "week", "weekly"]),
    (.M, ["月", "月份", "月度", "month", "monthly"]),
    (.Q, ["季度", "quarter", "quarterly"]),
    (.Y, ["年", "年度", "year", "yearly", "annual"]) ]

def RANKING_PATTERNS : List String :=
  ["排名", "前", "后", "top", "bottom", "rank", "最"]

def GROWTH_PATTERNS : List (String × List String) :=
  [ ("yoy", ["同比", "year-over-year", "yoy"]),
    ("mom", ["环比", "month-over-month", "mom"]),
    ("general", ["增长", "增速", "growth", "increase"]) ]

def TEXT_PATTERNS : List String :=
  ["关键词", "意见", "评论", "keyword", "comment", "text"]

def PRICE_PATTERNS : List String :=
  ["价格", "成本", "折扣", "清仓", "零售价", "price", "cost", "discount", "clearance"]

/-- Embeds `detect_language`: "zh" if a CJK character occurs, else "en". -/
def detect_language (question : String) : String :=
  if hasCJK question then "zh" else "en"

/-- Embeds `extract_numbers`: the integer values of all digit runs, in order. -/
def extract_numbers (question : String) : List Nat :=
  (digitRuns question).map digitsToNat

/-- Embeds `extract_date_range`: year-pair scan over `20\d{2}` matches. -/
def extract_date_range (question : String) : Option DateRange :=
  match findYears question with
  | y1 :: y2 :: _ => some ⟨some (y1 ++ "-01-01"), some (y2 ++ "-12-31")⟩
  | [y] =>
    if strContains question "起" || strContains (strLower question) "since" then
      some ⟨some (y ++ "-01-01"), none⟩
    else
      some ⟨some (y ++ "-01-01"), some (y ++ "-12-31")⟩
  | [] => none

/-- Embeds `detect_aggregation`: one spec per aggregation type any of whose
patterns occurs in the question (outer dict loop continues after the
inner break, so several types can contribute). -/
def detect_aggregation (question : String) : List AggregationSpec :=
  AGGREGATION_PATTERNS.filterMap fun (aggType, patterns) =>
    if patterns.any (fun pat => strContains question pat) then
      some ⟨"value", aggType⟩
    else
      none

/-- Embeds `detect_groupby`: dimension role keywords whose terms occur. -/
def detect_groupby (question : String) : List String :=
  let dimensions : List (String × List String) :=
    [ ("geography", ["地区", "城市", "省份", "region", "city", "province"]),
      ("time", ["月", "年", "month", "year"]),
      ("product", ["产品", "商品", "product", "item", "sku"]),
      ("category", ["类别", "品类", "分类", "category", "type"]) ]
  dimensions.filterMap fun (dim, keywords) =>
    if keywords.any (fun kw => strContains question kw) then some dim else none

/-- Embeds `detect_trend_frequency`: first frequency any of whose patterns occurs. -/
def detect_trend_frequency (question : String) : Option TrendFrequency :=
  (TIME_FREQ_PATTERNS.find? fun (_, patterns) =>
    patterns.any (fun pat => strContains question pat)).map (·.1)

/-- Embeds `detect_visualization`: explicit chart mentions, then intent flags. -/
def detect_visualization (question : String)
    (isTrend isRanking isGroupby : Bool) : VisualizationType :=
  if (strContains question "图" || strContains question "图表"
      || strContains question "chart")
      && (strContains question "折线" || strContains question "趋势"
          || strContains question "line") then
    .line
  else if (strContains question "图" || strContains question "图表"
      || strContains question "chart")
      && (strContains question "柱状" || strContains question "条形"
          || strContains question "bar") then
    .bar
  else if (strContains question "图" || strContains question "图表"
      || strContains question "chart")
      && (strContains question "饼图" || strContains question "pie") then
    .pie
  else if isTrend then
    .line
  else if isRanking || isGroupby then
    .bar
  else if strContains question "占比" || strContains question "比例"
      || strContains question "proportion" then
    .pie
  else
    .table

/-- The aggregation-detection block of `parse` (lines 228–231). -/
def applyAggregation (question : String) (intent : Intent) : Intent :=
  let aggregations := detect_aggregation question
  if !aggregations.isEmpty then
    { intent with is_aggregation := true, aggregations := aggregations }
  else intent

/-- The group-by block of `parse` (lines 234–237). -/
def applyGroupby (question : String) (intent : Intent) : Intent :=
  let groupbyKeywords := detect_groupby question
  if !groupbyKeywords.isEmpty then
    { intent with
      is_groupby := true
      mentioned_columns := intent.mentioned_columns ++ groupbyKeywords }
  else intent

/-- The trend block of `parse` (lines 240–248). -/
def applyTrend (question : String) (intent : Intent) : Intent :=
  if TREND_PATTERNS.any (fun pat => strContains question pat) then
    { intent with
      is_trend := true
      trend := some ⟨"date", (detect_trend_frequency question).getD .M, []⟩ }
  else intent

/-- The ranking/top-n block of `parse` (lines 251–266). -/
def applyRanking (question : String) (intent : Intent) : Intent :=
  if RANKING_PATTERNS.any (fun pat => strContains question pat) then
    let numbers := extract_numbers question
    let topN := match numbers with
      | n :: _ => n
      | [] => 10
    let sorts :=
      if strContains question "最大" || strContains question "最高"
          || strContains question "最多"
          || strContains (strLower question) "top" then
        [SortSpec.mk "value" .desc]
      else if strContains question "最小" || strContains question "最低"
          || strContains question "最少"
          || strContains (strLower question) "bottom" then
        [SortSpec.mk "value" .asc]
      else []
    { intent with
      is_ranking := true
      top_n := some topN
      sorts := intent.sorts ++ sorts }
  else intent

/-- The growth block of `parse` (lines 269–278); the outer dict loop
continues after the inner break, so a later matching growth type
overwrites the spec set by an earlier one. -/
def applyGrowth (question : String) (intent : Intent) : Intent :=
  GROWTH_PATTERNS.foldl
    (fun acc p =>
      if p.2.any (fun pat => strContains question pat) then
        { acc with
          is_growth := true
          growth := some ⟨"date", "value", p.1⟩ }
      else acc)
    intent

/-- The text-analysis block of `parse` (lines 281–289). -/
def applyText (question : String) (intent : Intent) : Intent :=
  if TEXT_PATTERNS.any (fun pat => strContains question pat) then
    { intent with
      is_text_analysis := true
      text_analysis := some ⟨"text", true, 20⟩ }
  else intent

/-- The price-analysis block of `parse` (lines 292–295). -/
def applyPrice (question : String) (intent : Intent) : Intent :=
  if PRICE_PATTERNS.any (fun pat => strContains question pat) then
    { intent with is_price_analysis := true }
  else intent

/-- The date-range block of `parse` (lines 298–313). -/
def applyDateRange (question : String) (intent : Intent) : Intent :=
  match extract_date_range question with
  | some dr =>
    let fs1 := match dr.start with
      | some s => if s ≠ "" then [FilterCondition.mk "date" ">=" s] else []
      | none => []
    let fs2 := match dr.end_ with
      | some e => if e ≠ "" then [FilterCondition.mk "date" "<=" e] else []
      | none => []
    { intent with
      date_range := some dr
      filters := intent.filters ++ fs1 ++ fs2 }
  | none => intent

/-- The visualization-inference step of `parse` (lines 316–321). -/
def applyViz (question : String) (intent : Intent) : Intent :=
  { intent with
    preferred_viz := detect_visualization question intent.is_trend
      intent.is_ranking intent.is_groupby }

/-- Embeds `IntentParser.parse`: the full rule cascade, blocks in source order. -/
def parse (question : String) : Intent :=
  applyViz question
    (applyDateRange question
      (applyPrice question
        (applyText question
          (applyGrowth question
            (applyRanking question
              (applyTrend question
                (applyGroupby question
                  (applyAggregation question
                    (Intent.default question (detect_language question))))))))))

end IntentParser

/-! ## Query rewriter (`backend/services/planner/query_rewrite.py`)

A `Candidate` is the dict handed to `rewrite`; its `types` dict is an
insertion-ordered association list.  `fuzzy_match_cols` (one line in
`backend/utils/df_utils.py`) delegates to the standard library's
`difflib.get_close_matches(need, cols, n=5, cutoff=0.6)`, an external
similarity search; it is modelled as an opaque parameter `fz`, constrained
in the theorems by the guarantee `difflib` provides by construction:
every returned match is drawn from `cols`. -/

structure Candidate where
  file_name : String
  sheet_name : String
  columns : List String
  types : List (String × String)
deriving DecidableEq, Repr

structure PlanFilter where
  col : String
  op : String
  value : String
deriving DecidableEq, Repr

structure PlanAgg where
  col : String
  op : String
deriving DecidableEq, Repr

structure PlanTrend where
  date_col : String
  freq : String
  value_cols : List String
deriving DecidableEq, Repr

structure PlanGrowth where
  date_col : String
  value_col : String
  growth_type : String
deriving DecidableEq, Repr

structure PlanTextOps where
  text_col : String
  keywords : Bool
  tokenizer : String
  topk : Nat
deriving DecidableEq, Repr

structure PlanSort where
  col : String
  order : String
deriving DecidableEq, Repr

structure Plan where
  file_name : String
  sheet_name : String
  filters : List PlanFilter
  groupby : List String
  agg : List PlanAgg
  trend : Option PlanTrend
  growth : Option PlanGrowth
  text_ops : Option PlanTextOps
  sort : List PlanSort
  limit : Option Nat
  viz : String
deriving DecidableEq, Repr

namespace QueryRewriter

def type_mapping : List (String × String) :=
  [ ("geography", "categorical"), ("time", "date"), ("date", "date"),
    ("value", "numeric"), ("amount", "numeric"), ("sales", "numeric"),
    ("text", "text") ]

def keyword_patterns : List (String × List String) :=
  [ ("geography", ["地区", "城市", "省份", "区域", "region", "city", "province"]),
    ("time", ["日期", "时间", "月", "年", "date", "time", "month", "year"]),
    ("sales", ["销售", "销量", "金额", "sales", "amount", "revenue"]),
    ("product", ["产品", "商品", "product", "item", "name", "名称"]),
    ("price", ["价格", "成本", "清仓", "零售", "price", "cost", "clearance"]),
    ("text", ["意见", "评论", "备注", "comment", "note", "remark"]) ]

/-- Tier 1 of keyword resolution (lines 58–67): the first column whose
lowercased name contains one of the keyword's patterns. -/
def patternResolve (availableColumns : List String) (keyword : String) :
    Option String :=
  match List.lookup keyword keyword_patterns with
  | some patterns =>
    availableColumns.find? fun col =>
      patterns.any (fun pat => strContains (strLower col) pat)
  | none => none

/-- Tier 2 of keyword resolution (lines 69–77): the first column whose
declared type matches the keyword's target type and which exists. -/
def typeResolve (availableColumns : List String)
    (columnTypes : List (String × String)) (keyword : String) : Option String :=
  match List.lookup keyword type_mapping with
  | some targetType =>
    (columnTypes.find? fun p =>
      p.2 == targetType && availableColumns.contains p.1).map (·.1)
  | none => none

/-- Resolution of a single keyword: pattern match on column names, then
type-based match, then fuzzy match (lines 55–87 of `query_rewrite.py`). -/
def resolveOne (fz : String → List String → List String)
    (availableColumns : List String) (columnTypes : List (String × String))
    (keyword : String) : Option String :=
  match patternResolve availableColumns keyword with
  | some col => some col
  | none =>
    match typeResolve availableColumns columnTypes keyword with
    | some col => some col
    | none => (fz keyword availableColumns).head?

/-- One iteration of the `resolve_columns` loop: record a hit, or leave the
dict unchanged on a miss (line 86: a failed keyword is only logged). -/
def resolveStep (fz : String → List String → List String)
    (availableColumns : List String) (columnTypes : List (String × String))
    (resolved : List (String × String)) (keyword : String) :
    List (String × String) :=
  match resolveOne fz availableColumns columnTypes keyword with
  | some col => insertKV resolved keyword col
  | none => resolved

/-- Embeds `QueryRewriter.resolve_columns`: fold the cascade over the keywords,
recording hits in a dict. -/
def resolve_columns (fz : String → List String → List String)
    (keywords availableColumns : List String)
    (columnTypes : List (String × String)) : List (String × String) :=
  keywords.foldl (resolveStep fz availableColumns columnTypes) []

/-- Keywords assembled in `rewrite` (lines 120–143). `intent.growth` is a
pydantic model, truthy iff present; `清仓价` and `价格` are literal keywords. -/
def resolutionKeywords (intent : Intent) : List String :=
  (if intent.is_groupby then intent.mentioned_columns else [])
  ++ (if intent.is_trend || intent.growth.isSome then ["time", "date"] else [])
  ++ (if intent.is_aggregation || intent.is_ranking then
        ["sales", "value", "amount", "price", "清仓价", "价格"] else [])
  ++ (if intent.is_text_analysis then ["text"] else [])

/-- Columns of the given declared type, in `types` iteration order. -/
def colsOfType (types : List (String × String)) (t : String) : List String :=
  (types.filter (fun p => p.2 == t)).map (·.1)

/-- Date-column cascade shared by the trend and growth blocks
(lines 182–187 and 208–214): role-resolved `date`/`time`, else the first
date-typed column, else the (falsy) role value. -/
def dateColResolve (resolved : List (String × String))
    (types : List (String × String)) : Option String :=
  let d := pyOrS (List.lookup "date" resolved) (List.lookup "time" resolved)
  if optTruthy d then d
  else
    match (colsOfType types "date").head? with
    | some c => some c
    | none => d

/-- Value-column cascade of the growth block (lines 209, 216–219). -/
def growthValueResolve (resolved : List (String × String))
    (types : List (String × String)) : Option String :=
  let v := pyOrS (List.lookup "value" resolved) (List.lookup "sales" resolved)
  if optTruthy v then v
  else
    match (colsOfType types "numeric").head? with
    | some c => some c
    | none => v

/-- Text-column cascade of the text-ops block (lines 230–234). -/
def textColResolve (resolved : List (String × String))
    (types : List (String × String)) : Option String :=
  let t := List.lookup "text" resolved
  if optTruthy t then t
  else
    match (colsOfType types "text").head? with
    | some c => some c
    | none => t

/-- Value-column cascade of the sort block (lines 248–258): role-resolved
`value`/`sales`, else the first price-named column, else the first
numeric-typed column. -/
def sortValueResolve (resolved : List (String × String))
    (columns : List String) (types : List (String × String)) : Option String :=
  let v := pyOrS (List.lookup "value" resolved) (List.lookup "sales" resolved)
  if optTruthy v then v
  else
    let priceCols := columns.filter fun col =>
      strContains col "价格" || strContains col "清仓价"
      || strContains (strLower col) "price"
    match priceCols.head? with
    | some c => some c
    | none =>
      match (colsOfType types "numeric").head? with
      | some c => some c
      | none => v

/-- Filter block (lines 151–159): resolve, keep only existing columns. -/
def buildFilters (resolved : List (String × String)) (columns : List String)
    (filters : List FilterCondition) : List PlanFilter :=
  filters.filterMap fun fc =>
    let colName := (List.lookup fc.column resolved).getD fc.column
    if columns.contains colName then
      some ⟨colName, fc.operator, fc.value⟩
    else none

/-- Group-by block (lines 162–166). -/
def buildGroupby (intent : Intent) (resolved : List (String × String))
    (columns : List String) : List String :=
  if intent.is_groupby then
    intent.mentioned_columns.filterMap fun keyword =>
      match List.lookup keyword resolved with
      | some col =>
        if col ≠ "" && columns.contains col then some col else none
      | none => none
  else []

/-- Aggregation block (lines 169–178): each requested op applied to the
first three numeric-typed columns. -/
def buildAgg (intent : Intent) (types : List (String × String)) : List PlanAgg :=
  if intent.is_aggregation then
    intent.aggregations.flatMap fun spec =>
      let numericCols := colsOfType types "numeric"
      if numericCols.isEmpty then []
      else (numericCols.take 3).map fun numCol =>
        ⟨numCol, spec.operation.value⟩
  else []

/-- Trend block (lines 181–204). -/
def buildTrend (intent : Intent) (resolved : List (String × String))
    (types : List (String × String)) (aggList : List PlanAgg) :
    Option PlanTrend :=
  if intent.is_trend && intent.trend.isSome then
    match intent.trend with
    | some trendSpec =>
      match dateColResolve resolved types with
      | some dateCol =>
        if dateCol ≠ "" then
          let valueCols :=
            if !aggList.isEmpty then aggList.map (·.col)
            else (colsOfType types "numeric").take 2
          some ⟨dateCol, trendSpec.frequency.value, valueCols⟩
        else none
      | none => none
    | none => none
  else none

/-- Growth block (lines 207–226): all-or-nothing on date and value. -/
def buildGrowth (intent : Intent) (resolved : List (String × String))
    (types : List (String × String)) : Option PlanGrowth :=
  if intent.is_growth && intent.growth.isSome then
    match intent.growth with
    | some growthSpec =>
      match dateColResolve resolved types, growthValueResolve resolved types with
      | some dateCol, some valueCol =>
        if dateCol ≠ "" && valueCol ≠ "" then
          some ⟨dateCol, valueCol, growthSpec.growth_type⟩
        else none
      | _, _ => none
    | none => none
  else none

/-- Text-ops block (lines 229–242). -/
def buildTextOps (intent : Intent) (resolved : List (String × String))
    (types : List (String × String)) : Option PlanTextOps :=
  if intent.is_text_analysis && intent.text_analysis.isSome then
    match intent.text_analysis with
    | some textSpec =>
      match textColResolve resolved types with
      | some textCol =>
        if textCol ≠ "" then
          some ⟨textCol, true,
            (if intent.language == "zh" then "simple_zh" else "simple_en"),
            textSpec.topk⟩
        else none
      | none => none
    | none => none
  else none

/-- Sort block (lines 245–264). -/
def buildSort (intent : Intent) (resolved : List (String × String))
    (columns : List String) (types : List (String × String)) : List PlanSort :=
  if intent.is_ranking then
    intent.sorts.filterMap fun sortSpec =>
      match sortValueResolve resolved columns types with
      | some valueCol =>
        if valueCol ≠ "" then some ⟨valueCol, sortSpec.order.value⟩ else none
      | none => none
  else []

/-- Limit (lines 266–268); `if intent.top_n:` is Python truthiness, so a
present but zero `top_n` leaves the limit unset. -/
def buildLimit (intent : Intent) : Option Nat :=
  if intent.is_ranking then
    match intent.top_n with
    | some n => if n ≠ 0 then some n else none
    | none => none
  else none

/-- Embeds `QueryRewriter.rewrite`: each plan field is written by exactly one block
of the Python method, in source order; the only cross-block read is the
trend block's use of the aggregation list. -/
def rewrite (fz : String → List String → List String) (intent : Intent)
    (candidate : Candidate) : Plan :=
  let columns := candidate.columns
  let types := candidate.types
  let resolved := resolve_columns fz (resolutionKeywords intent) columns types
  let aggList := buildAgg intent types
  { file_name := candidate.file_name
    sheet_name := candidate.sheet_name
    filters := buildFilters resolved columns intent.filters
    groupby := buildGroupby intent resolved columns
    agg := aggList
    trend := buildTrend intent resolved types aggList
    growth := buildGrowth intent resolved types
    text_ops := buildTextOps intent resolved types
    sort := buildSort intent resolved columns types
    limit := buildLimit intent
    viz := intent.preferred_viz.value }

/-- Every concrete column name occurring anywhere in a plan. -/
def planColumns (p : Plan) : List String :=
  p.filters.map (·.col) ++ p.groupby ++ p.agg.map (·.col)
  ++ (match p.trend with
      | some t => t.date_col :: t.value_cols
      | none => [])
  ++ (match p.growth with
      | some g => [g.date_col, g.value_col]
      | none => [])
  ++ (match p.text_ops with
      | some t => [t.text_col]
      | none => [])
  ++ p.sort.map (·.col)

end QueryRewriter

/-! ## Lineage tracking (`backend/services/codegen/lineage.py`) -/

/-- The lineage report returned by `merge_lineage`; `coverage` is the exact
rational value of the Python float division. -/
structure Lineage where
  used_columns : List String
  column_count : Nat
  original_column_count : Nat
  coverage : ℚ
  mapping : List (String × String)
deriving DecidableEq, Repr

namespace LineageTracker

/-- Embeds `LineageTracker.merge_lineage` (lines 139–205).  `ast_columns` is a
Python set, consumed only through membership tests, so it is modelled as a
list up to membership.  Note that the code computes the mapped-back set
`original_used` (lines 160–170) but then filters `original_columns` against
the *unmapped* `used_columns` (line 173); `original_used` is never read. -/
def merge_lineage (originalColumns expectedColumns : List String)
    (astColumns : List String)
    (columnsMap : Option (List (String × String))) : Lineage :=
  let usedColumns := expectedColumns ++ astColumns
  let finalColumns := originalColumns.filter fun col => usedColumns.contains col
  -- reverse_map = {v: k for k, v in columns_map.items()} (later pairs win)
  let reverseMap := (columnsMap.getD []).foldl
    (fun acc p => insertKV acc p.2 p.1) []
  let mapping :=
    if listTruthy columnsMap then
      finalColumns.map fun col =>
        match List.lookup col reverseMap with
        | some original => (original, col)
        | none => (col, col)
    else
      finalColumns.map fun col => (col, col)
  { used_columns := finalColumns
    column_count := finalColumns.length
    original_column_count := originalColumns.length
    coverage := (finalColumns.length : ℚ) / (max originalColumns.length 1 : ℚ)
    mapping := mapping }

end LineageTracker

/-! ## RAG retriever (`backend/services/rag/retriever.py`)

The embedding model (`SentenceTransformer.encode`) and the fitted
nearest-neighbor structure (`sklearn NearestNeighbors.kneighbors`) are
external collaborators; `search` is modelled as a function of their output:
`neighbors` is the list `zip(distances[0], indices[0])` of cosine distances
(exact rationals standing for the floats) and row indices into
`doc_metadata`.  `doc_nn = None` (index never loaded) is the `loaded = false`
state.  An out-of-range row index raises `IndexError` in Python, so the
model returns `none` in that case; the `rationale` display string of a
candidate is the one field not modelled. -/

/-- One entry of `doc_metadata.json`; `dateRange` is the value of
`metadata.get('date_range', '')`. -/
structure DocMeta where
  file_name : String
  sheet_name : String
  columns : List String
  types : List (String × String)
  row_count : Nat
  dateRange : String
  summary : String
deriving DecidableEq, Repr

/-- A scored retrieval candidate (the dict built at lines 239–252). -/
structure RagCandidate where
  file_name : String
  sheet_name : String
  score : ℚ
  semantic_score : ℚ
  coverage_score : ℚ
  columns : List String
  types : List (String × String)
  row_count : Nat
  column_count : Nat
  date_range : String
  summary : String
deriving DecidableEq, Repr

structure RetrieverState where
  loaded : Bool
  docMetadata : List DocMeta
deriving DecidableEq, Repr

namespace RAGRetriever

/-- The keyword-category table of `extract_keywords` (lines 97–106). -/
def keywordPatterns : List (String × List String) :=
  [ ("geography", ["地区", "城市", "省份", "区域", "region", "city"]),
    ("time", ["日期", "时间", "月", "年", "date", "time", "month", "year"]),
    ("sales", ["销售", "销量", "金额", "sales", "amount", "revenue"]),
    ("product", ["产品", "商品", "SKU", "product", "item"]),
    ("price", ["价格", "成本", "折扣", "清仓", "price", "cost", "discount"]),
    ("growth", ["增长", "同比", "环比", "趋势", "growth", "trend", "yoy"]),
    ("aggregation", ["总", "平均", "最大", "最小", "sum", "average", "total", "max", "min"]),
    ("ranking", ["排名", "前", "top", "bottom", "rank"]) ]

/-- Embeds `RAGRetriever.extract_keywords`: category names whose terms occur. -/
def extract_keywords (question : String) : List String :=
  keywordPatterns.filterMap fun (category, terms) =>
    if terms.any (fun term => strContains question term) then some category
    else none

/-- Embeds `RAGRetriever.compute_field_coverage` (lines 116–142). -/
def compute_field_coverage (question : String) (columns : List String) : ℚ :=
  let keywords := extract_keywords question
  let matchCount := (keywords.filter fun keyword =>
    columns.any fun col => strContains (strLower col) keyword).length
  if keywords.isEmpty then 1 / 2
  else (matchCount : ℚ) / (keywords.length : ℚ)

/-- The `date_score` computation (lines 194–203): hard-coded to the three
year literals 2023, 2024, 2025, tried in that order. -/
def dateScore (question dateRange : String) : ℚ :=
  if strContains question "2023" || strContains question "2024"
      || strContains question "2025" then
    if dateRange ≠ "" then
      if strContains question "2023" && strContains dateRange "2023" then 6 / 5
      else if strContains question "2024" && strContains dateRange "2024" then 6 / 5
      else if strContains question "2025" && strContains dateRange "2025" then 6 / 5
      else 1
    else 1
  else 1

/-- The `numeric_bonus` computation (lines 206–211). -/
def numericBonus (question : String) (types : List (String × String)) : ℚ :=
  if (["总", "平均", "求和", "统计", "sum", "average", "total"] : List String).any
      (fun kw => strContains question kw) then
    let numericCols := (types.filter fun p => p.2 == "numeric").map (·.1)
    if !numericCols.isEmpty then
      1 + ((numericCols.length : ℚ) / (types.length : ℚ)) * (1 / 2)
    else 1
  else 1

/-- Python `allow_files and file_name not in allow_files` /
`disallow_files and file_name in disallow_files` filter: `None` and the
empty list disable the corresponding filter. -/
def passesFilters (allowFiles disallowFiles : Option (List String))
    (fileName : String) : Bool :=
  !(listTruthy allowFiles && !((allowFiles.getD []).contains fileName))
  && !(listTruthy disallowFiles && (disallowFiles.getD []).contains fileName)

/-- Score one neighbor (the loop body, lines 176–252); `none` means the
candidate was dropped by the allow/disallow filter (`continue`). -/
def scoreCandidate (question : String)
    (allowFiles disallowFiles : Option (List String))
    (dist : ℚ) (metadata : DocMeta) : Option RagCandidate :=
  if passesFilters allowFiles disallowFiles metadata.file_name then
    let semanticScore := 1 - dist
    let coverageScore := compute_field_coverage question metadata.columns
    let finalScore := semanticScore * (1 + coverageScore)
      * dateScore question metadata.dateRange
      * numericBonus question metadata.types
    some
      { file_name := metadata.file_name
        sheet_name := metadata.sheet_name
        score := finalScore
        semantic_score := semanticScore
        coverage_score := coverageScore
        columns := metadata.columns
        types := metadata.types
        row_count := metadata.row_count
        column_count := metadata.columns.length
        date_range := metadata.dateRange
        summary := metadata.summary }
  else none

/-- Embeds `RAGRetriever.search` (lines 144–261).  Returns `none` exactly when the
Python loop would raise `IndexError` on `self.doc_metadata[idx]`; otherwise
`some` of the filtered, scored, stably descending-sorted, truncated list. -/
def search (state : RetrieverState) (question : String) (topK : Nat)
    (allowFiles disallowFiles : Option (List String))
    (neighbors : List (ℚ × Nat)) : Option (List RagCandidate) :=
  if !state.loaded then some []
  else
    match neighbors.mapM (fun p => (state.docMetadata[p.2]?).map ((p.1, ·))) with
    | none => none
    | some metas =>
      let candidates := metas.filterMap fun (dist, metadata) =>
        scoreCandidate question allowFiles disallowFiles dist metadata
      -- `candidates.sort(key=..., reverse=True)`: stable descending by score
      let sorted := sortBy (fun a b => decide (b.score ≤ a.score)) candidates
      some (sorted.take (min topK state.docMetadata.length))

/-- The date bonus as §4.3 of the spec words it, for comparison with
`dateScore`: 1.2 if a 4-digit year literal (a maximal digit run of length 4)
of the question also appears in the candidate's recorded date range, else
1.0.  This definition follows the spec's sentence, not the code. -/
def specDateBonus (question dateRange : String) : ℚ :=
  if ((digitRuns question).filter (fun r => r.length == 4)).any
      (fun y => strContains dateRange y) then 6 / 5
  else 1

end RAGRetriever

/-! ## Theorems about the lineage reconciler -/

/-- C3: for every original/expected/discovered column collection and any
rename mapping, `merge_lineage`'s `used_columns` is a sublist (subsequence
in original order) of `original_columns`, and `coverage` equals
`|used_columns| / max(|original_columns|, 1)`, a value in `[0, 1]`. -/
theorem merge_lineage_order_and_coverage (originalColumns expectedColumns
    astColumns : List String) (columnsMap : Option (List (String × String))) :
    List.Sublist
      (LineageTracker.merge_lineage originalColumns expectedColumns
        astColumns columnsMap).used_columns originalColumns
    ∧ (LineageTracker.merge_lineage originalColumns expectedColumns
        astColumns columnsMap).coverage =
      ((LineageTracker.merge_lineage originalColumns expectedColumns
        astColumns columnsMap).used_columns.length : ℚ)
        / (max originalColumns.length 1 : ℚ)
    ∧ 0 ≤ (LineageTracker.merge_lineage originalColumns expectedColumns
        astColumns columnsMap).coverage
    ∧ (LineageTracker.merge_lineage originalColumns expectedColumns
        astColumns columnsMap).coverage ≤ 1 := by
  refine ⟨List.filter_sublist _, rfl, ?_, ?_⟩
  · exact div_nonneg (Nat.cast_nonneg _) (le_trans zero_le_one (le_max_right _ _))
  · apply div_le_one_of_le₀
    · calc ((originalColumns.filter _).length : ℚ)
          ≤ (originalColumns.length : ℚ) := by
            exact_mod_cast List.length_filter_le _ _
        _ ≤ max (originalColumns.length : ℚ) 1 := le_max_left _ _
    · exact le_trans zero_le_one (le_max_right _ _)

/-- C2: the code computes the mapped-back set `original_used` but filters
against the unmapped `used_columns`, so a column discovered only under its
normalized name is dropped even though its pre-normalization original name
is in `original_columns`.  Here `columns_map = {"Region Name": "region_name"}`
(original → normalized), the code discovered `"region_name"`, and the
resulting `used_columns` is empty instead of `["Region Name"]`. -/
theorem merge_lineage_rename_filter_slip :
    (LineageTracker.merge_lineage ["Region Name"] [] ["region_name"]
      (some [("Region Name", "region_name")])).used_columns = []
    ∧ (LineageTracker.merge_lineage ["Region Name"] [] ["region_name"]
      (some [("Region Name", "region_name")])).coverage = 0 := by
  constructor
  · rfl
  · have h2 : (LineageTracker.merge_lineage ["Region Name"] [] ["region_name"]
        (some [("Region Name", "region_name")])).coverage
        = (((LineageTracker.merge_lineage ["Region Name"] [] ["region_name"]
        (some [("Region Name", "region_name")])).used_columns.length : ℚ))
          / (max ((1:ℕ):ℚ) 1) := rfl
    have h1 : (LineageTracker.merge_lineage ["Region Name"] [] ["region_name"]
        (some [("Region Name", "region_name")])).used_columns = [] := rfl
    rw [h2, h1]
    norm_num

/-! ## Theorems about the intent parser -/

/-- C7: Scenario B — parsing "Show top 5 SKUs by clearance discount vs MSRP
in 2024" yields `is_ranking = true`, `top_n = 5`, `is_price_analysis = true`. -/
theorem parse_scenarioB :
    (IntentParser.parse
      "Show top 5 SKUs by clearance discount vs MSRP in 2024").is_ranking = true
    ∧ (IntentParser.parse
      "Show top 5 SKUs by clearance discount vs MSRP in 2024").top_n = some 5
    ∧ (IntentParser.parse
      "Show top 5 SKUs by clearance discount vs MSRP in 2024").is_price_analysis
      = true := by
  refine ⟨by rfl, by rfl, by rfl⟩

/-- The growth block never touches `top_n`. -/
theorem applyGrowth_top_n (q : String) (i : Intent) :
    (IntentParser.applyGrowth q i).top_n = i.top_n := by
  unfold IntentParser.applyGrowth
  simp only [IntentParser.GROWTH_PATTERNS, List.foldl_cons, List.foldl_nil]
  split <;> split <;> split <;> rfl

/-- The text-analysis block never touches `top_n`. -/
theorem applyText_top_n (q : String) (i : Intent) :
    (IntentParser.applyText q i).top_n = i.top_n := by
  unfold IntentParser.applyText
  split <;> rfl

/-- The price-analysis block never touches `top_n`. -/
theorem applyPrice_top_n (q : String) (i : Intent) :
    (IntentParser.applyPrice q i).top_n = i.top_n := by
  unfold IntentParser.applyPrice
  split <;> rfl

/-- The date-range block never touches `top_n`. -/
theorem applyDateRange_top_n (q : String) (i : Intent) :
    (IntentParser.applyDateRange q i).top_n = i.top_n := by
  unfold IntentParser.applyDateRange
  split <;> rfl

/-- The visualization step never touches `top_n`. -/
theorem applyViz_top_n (q : String) (i : Intent) :
    (IntentParser.applyViz q i).top_n = i.top_n := rfl

/-- C10: whenever a ranking keyword occurs in the question and the question
contains at least one digit run, `parse` sets `top_n` to the integer value
of the first digit run — even when that run is a 4-digit year literal. -/
theorem parse_ranking_first_number (q : String)
    (hrank : IntentParser.RANKING_PATTERNS.any
      (fun pat => strContains q pat) = true)
    (hnum : IntentParser.extract_numbers q ≠ []) :
    (IntentParser.parse q).top_n = (IntentParser.extract_numbers q).head? := by
  obtain ⟨n, ns, hq⟩ : ∃ n ns, IntentParser.extract_numbers q = n :: ns := by
    cases h : IntentParser.extract_numbers q with
    | nil => exact absurd h hnum
    | cons a l => exact ⟨a, l, rfl⟩
  unfold IntentParser.parse
  rw [applyViz_top_n, applyDateRange_top_n, applyPrice_top_n, applyText_top_n,
    applyGrowth_top_n]
  unfold IntentParser.applyRanking
  simp only [hrank, hq, if_true, List.head?]

/-- C10 witness: the only number in "rank regions by sales in 2024" is the
year literal, and it becomes `top_n`. -/
theorem parse_ranking_first_number_witness :
    (IntentParser.parse "rank regions by sales in 2024").top_n =
      (IntentParser.extract_numbers "rank regions by sales in 2024").head? :=
  parse_ranking_first_number "rank regions by sales in 2024" (by rfl)
    (by decide)

/-- C8: `parse` is a pure function of the question alone (the class holds no
state and the rule cascade reads nothing but its input), so two invocations
on the same question yield field-for-field identical Intent records. -/
theorem parse_deterministic (q : String) :
    IntentParser.parse q = IntentParser.parse q := rfl

/-! ## Theorems about the query rewriter -/

/-- The head of a list is a member. -/
theorem head?_mem {α : Type} {l : List α} {a : α} (h : l.head? = some a) :
    a ∈ l := by
  cases l with
  | nil => cases h
  | cons b t =>
    simp only [List.head?_cons, Option.some.injEq] at h
    rw [← h]
    exact List.mem_cons_self b t

/-- A successful `List.lookup` pairs the key with a stored value. -/
theorem lookup_mem (k v : String) (l : List (String × String))
    (h : List.lookup k l = some v) : (k, v) ∈ l := by
  induction l with
  | nil => cases h
  | cons p t ih =>
    obtain ⟨k', v'⟩ := p
    simp only [List.lookup] at h
    cases hk : (k == k') with
    | true =>
      rw [hk] at h
      cases h
      have hkk : k = k' := eq_of_beq hk
      rw [hkk]
      exact List.mem_cons_self _ _
    | false =>
      rw [hk] at h
      exact List.mem_cons_of_mem _ (ih h)

/-- The dict update `insertKV` preserves a predicate on stored values. -/
theorem insertKV_values (P : String → Prop) (k v : String) :
    ∀ (l : List (String × String)), (∀ p ∈ l, P p.2) → P v →
      ∀ p ∈ insertKV l k v, P p.2 := by
  intro l
  induction l with
  | nil =>
    intro _ hv p hp
    simp only [insertKV, List.mem_singleton] at hp
    rw [hp]
    exact hv
  | cons q t ih =>
    intro hl hv p hp
    obtain ⟨k', v'⟩ := q
    simp only [insertKV] at hp
    by_cases hk : (k' == k) = true
    · rw [if_pos hk] at hp
      rcases List.mem_cons.mp hp with h1 | h2
      · rw [h1]
        exact hv
      · exact hl p (List.mem_cons_of_mem _ h2)
    · rw [if_neg hk] at hp
      rcases List.mem_cons.mp hp with h1 | h2
      · rw [h1]
        exact hl (k', v') (List.mem_cons_self _ _)
      · exact ih (fun r hr => hl r (List.mem_cons_of_mem _ hr)) hv p h2

/-- Tier-1 resolution returns an existing column. -/
theorem patternResolve_mem (cols : List String) (kw c : String)
    (h : QueryRewriter.patternResolve cols kw = some c) : c ∈ cols := by
  unfold QueryRewriter.patternResolve at h
  cases hl : List.lookup kw QueryRewriter.keyword_patterns with
  | none => rw [hl] at h; cases h
  | some patterns =>
    rw [hl] at h
    exact List.mem_of_find?_eq_some h

/-- Tier-2 resolution returns an existing column (it checks existence). -/
theorem typeResolve_mem (cols : List String)
    (types : List (String × String)) (kw c : String)
    (h : QueryRewriter.typeResolve cols types kw = some c) : c ∈ cols := by
  unfold QueryRewriter.typeResolve at h
  cases hl : List.lookup kw QueryRewriter.type_mapping with
  | none => rw [hl] at h; cases h
  | some targetType =>
    rw [hl] at h
    have h' : Option.map (fun x : String × String => x.1)
        (List.find? (fun p => p.2 == targetType && cols.contains p.1) types)
        = some c := h
    cases hf : List.find?
        (fun p => p.2 == targetType && cols.contains p.1) types with
    | none => rw [hf] at h'; cases h'
    | some pr =>
      rw [hf] at h'
      cases h'
      have hp := List.find?_some hf
      rw [Bool.and_eq_true] at hp
      exact List.elem_iff.mp hp.2

/-- One resolution step returns an existing column, given that the fuzzy
matcher only returns matches drawn from its column argument (which
`difflib.get_close_matches` guarantees by construction). -/
theorem resolveOne_mem (fz : String → List String → List String)
    (hfz : ∀ keyword cols c, c ∈ fz keyword cols → c ∈ cols)
    (cols : List String) (types : List (String × String)) (kw c : String)
    (h : QueryRewriter.resolveOne fz cols types kw = some c) : c ∈ cols := by
  unfold QueryRewriter.resolveOne at h
  cases hp : QueryRewriter.patternResolve cols kw with
  | some col =>
    rw [hp] at h
    cases h
    exact patternResolve_mem cols kw _ hp
  | none =>
    rw [hp] at h
    cases ht : QueryRewriter.typeResolve cols types kw with
    | some col =>
      rw [ht] at h
      cases h
      exact typeResolve_mem cols types kw _ ht
    | none =>
      rw [ht] at h
      exact hfz kw cols c (head?_mem h)

/-- Every value stored by `resolve_columns` is an existing column. -/
theorem resolve_columns_values (fz : String → List String → List String)
    (hfz : ∀ keyword cols c, c ∈ fz keyword cols → c ∈ cols)
    (kws cols : List String) (types : List (String × String)) :
    ∀ k v, List.lookup k
        (QueryRewriter.resolve_columns fz kws cols types) = some v →
      v ∈ cols := by
  have step : ∀ (acc : List (String × String)) (kw : String),
      (∀ p ∈ acc, p.2 ∈ cols) →
      ∀ p ∈ QueryRewriter.resolveStep fz cols types acc kw, p.2 ∈ cols := by
    intro acc kw hacc
    unfold QueryRewriter.resolveStep
    cases hr : QueryRewriter.resolveOne fz cols types kw with
    | none => exact hacc
    | some col =>
      exact insertKV_values (· ∈ cols) kw col acc hacc
        (resolveOne_mem fz hfz cols types kw col hr)
  have main : ∀ (ks : List String) (acc : List (String × String)),
      (∀ p ∈ acc, p.2 ∈ cols) →
      ∀ p ∈ ks.foldl (QueryRewriter.resolveStep fz cols types) acc,
        p.2 ∈ cols := by
    intro ks
    induction ks with
    | nil =>
      intro acc hacc
      simpa using hacc
    | cons kw rest ih =>
      intro acc hacc
      rw [List.foldl_cons]
      exact ih _ (step acc kw hacc)
  intro k v h
  exact main kws [] (fun p hp => absurd hp (List.not_mem_nil p)) (k, v)
    (lookup_mem k v _ h)

/-- Python `a or b` returning a value means one operand held it. -/
theorem pyOrS_eq_some (a b : Option String) (c : String)
    (h : pyOrS a b = some c) : a = some c ∨ b = some c := by
  unfold pyOrS at h
  split at h
  · exact Or.inl h
  · exact Or.inr h

/-- Columns of a declared type exist, under the well-formedness hypothesis
that every key of the `types` dict is an existing column. -/
theorem colsOfType_mem (types : List (String × String)) (t : String)
    (cols : List String) (hwf : ∀ p ∈ types, p.1 ∈ cols) :
    ∀ c ∈ QueryRewriter.colsOfType types t, c ∈ cols := by
  intro c hc
  unfold QueryRewriter.colsOfType at hc
  obtain ⟨p, hp, hpc⟩ := List.mem_map.mp hc
  rw [← hpc]
  exact hwf p (List.mem_filter.mp hp).1

/-- The date-column cascade yields an existing column when truthy. -/
theorem dateColResolve_mem (resolved types : List (String × String))
    (cols : List String)
    (hRv : ∀ k v, List.lookup k resolved = some v → v ∈ cols)
    (hwf : ∀ p ∈ types, p.1 ∈ cols) (c : String)
    (h : QueryRewriter.dateColResolve resolved types = some c)
    (hne : c ≠ "") : c ∈ cols := by
  simp only [QueryRewriter.dateColResolve] at h
  by_cases hd : optTruthy (pyOrS (List.lookup "date" resolved)
      (List.lookup "time" resolved)) = true
  · rw [if_pos hd] at h
    rcases pyOrS_eq_some _ _ _ h with h1 | h1
    · exact hRv "date" c h1
    · exact hRv "time" c h1
  · rw [if_neg hd] at h
    cases hh : (QueryRewriter.colsOfType types "date").head? with
    | some c' =>
      rw [hh] at h
      cases h
      exact colsOfType_mem types "date" cols hwf _ (head?_mem hh)
    | none =>
      rw [hh] at h
      have h' : pyOrS (List.lookup "date" resolved)
          (List.lookup "time" resolved) = some c := h
      exact absurd (by rw [h']; simp [optTruthy, hne]) hd

/-- The growth value-column cascade yields an existing column when truthy. -/
theorem growthValueResolve_mem (resolved types : List (String × String))
    (cols : List String)
    (hRv : ∀ k v, List.lookup k resolved = some v → v ∈ cols)
    (hwf : ∀ p ∈ types, p.1 ∈ cols) (c : String)
    (h : QueryRewriter.growthValueResolve resolved types = some c)
    (hne : c ≠ "") : c ∈ cols := by
  simp only [QueryRewriter.growthValueResolve] at h
  by_cases hd : optTruthy (pyOrS (List.lookup "value" resolved)
      (List.lookup "sales" resolved)) = true
  · rw [if_pos hd] at h
    rcases pyOrS_eq_some _ _ _ h with h1 | h1
    · exact hRv "value" c h1
    · exact hRv "sales" c h1
  · rw [if_neg hd] at h
    cases hh : (QueryRewriter.colsOfType types "numeric").head? with
    | some c' =>
      rw [hh] at h
      cases h
      exact colsOfType_mem types "numeric" cols hwf _ (head?_mem hh)
    | none =>
      rw [hh] at h
      have h' : pyOrS (List.lookup "value" resolved)
          (List.lookup "sales" resolved) = some c := h
      exact absurd (by rw [h']; simp [optTruthy, hne]) hd

/-- The text-column cascade yields an existing column when truthy. -/
theorem textColResolve_mem (resolved types : List (String × String))
    (cols : List String)
    (hRv : ∀ k v, List.lookup k resolved = some v → v ∈ cols)
    (hwf : ∀ p ∈ types, p.1 ∈ cols) (c : String)
    (h : QueryRewriter.textColResolve resolved types = some c)
    (hne : c ≠ "") : c ∈ cols := by
  simp only [QueryRewriter.textColResolve] at h
  by_cases hd : optTruthy (List.lookup "text" resolved) = true
  · rw [if_pos hd] at h
    exact hRv "text" c h
  · rw [if_neg hd] at h
    cases hh : (QueryRewriter.colsOfType types "text").head? with
    | some c' =>
      rw [hh] at h
      cases h
      exact colsOfType_mem types "text" cols hwf _ (head?_mem hh)
    | none =>
      rw [hh] at h
      have h' : List.lookup "text" resolved = some c := h
      exact absurd (by rw [h']; simp [optTruthy, hne]) hd

/-- The sort value-column cascade yields an existing column when truthy. -/
theorem sortValueResolve_mem (resolved types : List (String × String))
    (cols : List String)
    (hRv : ∀ k v, List.lookup k resolved = some v → v ∈ cols)
    (hwf : ∀ p ∈ types, p.1 ∈ cols) (c : String)
    (h : QueryRewriter.sortValueResolve resolved cols types = some c)
    (hne : c ≠ "") : c ∈ cols := by
  simp only [QueryRewriter.sortValueResolve] at h
  by_cases hd : optTruthy (pyOrS (List.lookup "value" resolved)
      (List.lookup "sales" resolved)) = true
  · rw [if_pos hd] at h
    rcases pyOrS_eq_some _ _ _ h with h1 | h1
    · exact hRv "value" c h1
    · exact hRv "sales" c h1
  · rw [if_neg hd] at h
    cases hp : (cols.filter fun col =>
        strContains col "价格" || strContains col "清仓价"
        || strContains (strLower col) "price").head? with
    | some c' =>
      rw [hp] at h
      cases h
      exact (List.mem_filter.mp (head?_mem hp)).1
    | none =>
      rw [hp] at h
      cases hh : (QueryRewriter.colsOfType types "numeric").head? with
      | some c' =>
        rw [hh] at h
        cases h
        exact colsOfType_mem types "numeric" cols hwf _ (head?_mem hh)
      | none =>
        rw [hh] at h
        have h' : pyOrS (List.lookup "value" resolved)
            (List.lookup "sales" resolved) = some c := h
        exact absurd (by rw [h']; simp [optTruthy, hne]) hd

/-- Filter-block columns exist (the block checks membership itself). -/
theorem buildFilters_mem (resolved : List (String × String))
    (cols : List String) (fs : List FilterCondition) :
    ∀ pf ∈ QueryRewriter.buildFilters resolved cols fs, pf.col ∈ cols := by
  intro pf hpf
  unfold QueryRewriter.buildFilters at hpf
  obtain ⟨fc, _, hfc⟩ := List.mem_filterMap.mp hpf
  by_cases hc : cols.contains ((List.lookup fc.column resolved).getD fc.column)
      = true
  · rw [if_pos hc] at hfc
    cases hfc
    exact List.elem_iff.mp hc
  · rw [if_neg hc] at hfc
    cases hfc

/-- Group-by columns exist (the block checks membership itself). -/
theorem buildGroupby_mem (intent : Intent)
    (resolved : List (String × String)) (cols : List String) :
    ∀ g ∈ QueryRewriter.buildGroupby intent resolved cols, g ∈ cols := by
  intro g hg
  unfold QueryRewriter.buildGroupby at hg
  by_cases hgb : intent.is_groupby = true
  · rw [if_pos hgb] at hg
    obtain ⟨kw, _, hkw⟩ := List.mem_filterMap.mp hg
    cases hl : List.lookup kw resolved with
    | none => rw [hl] at hkw; cases hkw
    | some col =>
      rw [hl] at hkw
      have hkw' : (if (decide (col ≠ "") && cols.contains col) = true
          then some col else none) = some g := hkw
      by_cases hcc : (decide (col ≠ "") && cols.contains col) = true
      · rw [if_pos hcc] at hkw'
        cases hkw'
        rw [Bool.and_eq_true] at hcc
        exact List.elem_iff.mp hcc.2
      · rw [if_neg hcc] at hkw'
        cases hkw'
  · rw [if_neg hgb] at hg
    cases hg

/-- Aggregation columns are numeric-typed columns, hence exist. -/
theorem buildAgg_mem (intent : Intent) (types : List (String × String))
    (cols : List String) (hwf : ∀ p ∈ types, p.1 ∈ cols) :
    ∀ a ∈ QueryRewriter.buildAgg intent types, a.col ∈ cols := by
  intro a ha
  unfold QueryRewriter.buildAgg at ha
  by_cases hag : intent.is_aggregation = true
  · rw [if_pos hag] at ha
    obtain ⟨spec, _, hsp⟩ := List.mem_flatMap.mp ha
    by_cases hne : (QueryRewriter.colsOfType types "numeric").isEmpty = true
    · rw [if_pos hne] at hsp
      cases hsp
    · rw [if_neg hne] at hsp
      obtain ⟨nc, hnc, hna⟩ := List.mem_map.mp hsp
      rw [← hna]
      exact colsOfType_mem types "numeric" cols hwf nc (List.mem_of_mem_take hnc)
  · rw [if_neg hag] at ha
    cases ha

/-- Trend-block columns exist. -/
theorem buildTrend_mem (intent : Intent)
    (resolved types : List (String × String)) (aggList : List PlanAgg)
    (cols : List String)
    (hRv : ∀ k v, List.lookup k resolved = some v → v ∈ cols)
    (hwf : ∀ p ∈ types, p.1 ∈ cols)
    (hagg : ∀ a ∈ aggList, a.col ∈ cols) (t : PlanTrend)
    (h : QueryRewriter.buildTrend intent resolved types aggList = some t) :
    t.date_col ∈ cols ∧ ∀ v ∈ t.value_cols, v ∈ cols := by
  unfold QueryRewriter.buildTrend at h
  by_cases hcond : (intent.is_trend && intent.trend.isSome) = true
  · rw [if_pos hcond] at h
    cases hts : intent.trend with
    | none => rw [hts] at h; cases h
    | some trendSpec =>
      rw [hts] at h
      cases hd : QueryRewriter.dateColResolve resolved types with
      | none => rw [hd] at h; cases h
      | some dateCol =>
        rw [hd] at h
        have h' : (if dateCol ≠ "" then
            some (PlanTrend.mk dateCol trendSpec.frequency.value
              (if (!aggList.isEmpty) = true then aggList.map (·.col)
                else (QueryRewriter.colsOfType types "numeric").take 2))
          else none) = some t := h
        by_cases hne : dateCol ≠ ""
        · rw [if_pos hne] at h'
          cases h'
          refine ⟨dateColResolve_mem resolved types cols hRv hwf dateCol hd hne,
            ?_⟩
          intro v hv
          simp only at hv
          by_cases ha : (!aggList.isEmpty) = true
          · rw [if_pos ha] at hv
            obtain ⟨a, haa, hac⟩ := List.mem_map.mp hv
            rw [← hac]
            exact hagg a haa
          · rw [if_neg ha] at hv
            exact colsOfType_mem types "numeric" cols hwf v
              (List.mem_of_mem_take hv)
        · rw [if_neg hne] at h'
          cases h'
  · rw [if_neg hcond] at h
    cases h

/-- Growth-block columns exist. -/
theorem buildGrowth_mem (intent : Intent)
    (resolved types : List (String × String)) (cols : List String)
    (hRv : ∀ k v, List.lookup k resolved = some v → v ∈ cols)
    (hwf : ∀ p ∈ types, p.1 ∈ cols) (g : PlanGrowth)
    (h : QueryRewriter.buildGrowth intent resolved types = some g) :
    g.date_col ∈ cols ∧ g.value_col ∈ cols := by
  unfold QueryRewriter.buildGrowth at h
  by_cases hcond : (intent.is_growth && intent.growth.isSome) = true
  · rw [if_pos hcond] at h
    cases hgs : intent.growth with
    | none => rw [hgs] at h; cases h
    | some growthSpec =>
      rw [hgs] at h
      cases hd : QueryRewriter.dateColResolve resolved types with
      | none => rw [hd] at h; cases h
      | some dateCol =>
        cases hv : QueryRewriter.growthValueResolve resolved types with
        | none => rw [hd, hv] at h; cases h
        | some valueCol =>
          rw [hd, hv] at h
          have h' : (if (decide (dateCol ≠ "") && decide (valueCol ≠ ""))
                = true then
              some (PlanGrowth.mk dateCol valueCol growthSpec.growth_type)
            else none) = some g := h
          by_cases hne : (decide (dateCol ≠ "") && decide (valueCol ≠ ""))
              = true
          · rw [if_pos hne] at h'
            cases h'
            rw [Bool.and_eq_true, decide_eq_true_iff, decide_eq_true_iff]
              at hne
            exact ⟨dateColResolve_mem resolved types cols hRv hwf dateCol hd
                hne.1,
              growthValueResolve_mem resolved types cols hRv hwf valueCol hv
                hne.2⟩
          · rw [if_neg hne] at h'
            cases h'
  · rw [if_neg hcond] at h
    cases h

/-- Text-ops columns exist. -/
theorem buildTextOps_mem (intent : Intent)
    (resolved types : List (String × String)) (cols : List String)
    (hRv : ∀ k v, List.lookup k resolved = some v → v ∈ cols)
    (hwf : ∀ p ∈ types, p.1 ∈ cols) (t : PlanTextOps)
    (h : QueryRewriter.buildTextOps intent resolved types = some t) :
    t.text_col ∈ cols := by
  unfold QueryRewriter.buildTextOps at h
  by_cases hcond : (intent.is_text_analysis && intent.text_analysis.isSome)
      = true
  · rw [if_pos hcond] at h
    cases hts : intent.text_analysis with
    | none => rw [hts] at h; cases h
    | some textSpec =>
      rw [hts] at h
      cases ht : QueryRewriter.textColResolve resolved types with
      | none => rw [ht] at h; cases h
      | some textCol =>
        rw [ht] at h
        have h' : (if textCol ≠ "" then
            some (PlanTextOps.mk textCol true
              (if (intent.language == "zh") = true then "simple_zh"
                else "simple_en") textSpec.topk)
          else none) = some t := h
        by_cases hne : textCol ≠ ""
        · rw [if_pos hne] at h'
          cases h'
          exact textColResolve_mem resolved types cols hRv hwf textCol ht hne
        · rw [if_neg hne] at h'
          cases h'
  · rw [if_neg hcond] at h
    cases h

/-- Sort columns exist. -/
theorem buildSort_mem (intent : Intent)
    (resolved types : List (String × String)) (cols : List String)
    (hRv : ∀ k v, List.lookup k resolved = some v → v ∈ cols)
    (hwf : ∀ p ∈ types, p.1 ∈ cols) :
    ∀ s ∈ QueryRewriter.buildSort intent resolved cols types, s.col ∈ cols := by
  intro s hs
  unfold QueryRewriter.buildSort at hs
  by_cases hr : intent.is_ranking = true
  · rw [if_pos hr] at hs
    obtain ⟨ss, _, hss⟩ := List.mem_filterMap.mp hs
    cases hv : QueryRewriter.sortValueResolve resolved cols types with
    | none => rw [hv] at hss; cases hss
    | some valueCol =>
      rw [hv] at hss
      have hss' : (if valueCol ≠ "" then
          some (PlanSort.mk valueCol ss.order.value) else none) = some s :=
        hss
      by_cases hne : valueCol ≠ ""
      · rw [if_pos hne] at hss'
        cases hss'
        exact sortValueResolve_mem resolved types cols hRv hwf valueCol hv hne
      · rw [if_neg hne] at hss'
        cases hss'
  · rw [if_neg hr] at hs
    cases hs

/-- C1: for a well-formed candidate (every `types` key is a column) and a
fuzzy matcher returning only matches drawn from its column argument, every
concrete column name anywhere in the plan produced by `rewrite` — filters,
groupby, agg, trend, growth, text_ops and sort — is one of the candidate's
columns. -/
theorem rewrite_plan_columns_exist (fz : String → List String → List String)
    (hfz : ∀ keyword cols c, c ∈ fz keyword cols → c ∈ cols)
    (intent : Intent) (cand : Candidate)
    (hwf : ∀ p ∈ cand.types, p.1 ∈ cand.columns) :
    ∀ c ∈ QueryRewriter.planColumns (QueryRewriter.rewrite fz intent cand),
      c ∈ cand.columns := by
  intro c hc
  have hRv : ∀ k v, List.lookup k (QueryRewriter.resolve_columns fz
      (QueryRewriter.resolutionKeywords intent) cand.columns cand.types)
      = some v → v ∈ cand.columns :=
    resolve_columns_values fz hfz _ _ _
  unfold QueryRewriter.planColumns at hc
  rcases List.mem_append.mp hc with hc | hsort
  · rcases List.mem_append.mp hc with hc | htext
    · rcases List.mem_append.mp hc with hc | hgrow
      · rcases List.mem_append.mp hc with hc | htrend
        · rcases List.mem_append.mp hc with hc | hagg
          · rcases List.mem_append.mp hc with hfil | hgrp
            · obtain ⟨pf, hpf, hcol⟩ := List.mem_map.mp hfil
              rw [← hcol]
              exact buildFilters_mem _ cand.columns intent.filters pf hpf
            · exact buildGroupby_mem intent _ cand.columns c hgrp
          · obtain ⟨a, haa, hac⟩ := List.mem_map.mp hagg
            rw [← hac]
            exact buildAgg_mem intent cand.types cand.columns hwf a haa
        · cases hot : (QueryRewriter.rewrite fz intent cand).trend with
          | none => rw [hot] at htrend; cases htrend
          | some t =>
            rw [hot] at htrend
            obtain ⟨hdate, hvals⟩ := buildTrend_mem intent _ cand.types
              (QueryRewriter.buildAgg intent cand.types) cand.columns hRv hwf
              (buildAgg_mem intent cand.types cand.columns hwf) t hot
            rcases List.mem_cons.mp htrend with h1 | h2
            · rw [h1]; exact hdate
            · exact hvals c h2
      · cases hog : (QueryRewriter.rewrite fz intent cand).growth with
        | none => rw [hog] at hgrow; cases hgrow
        | some g =>
          rw [hog] at hgrow
          obtain ⟨hdate, hval⟩ := buildGrowth_mem intent _ cand.types
            cand.columns hRv hwf g hog
          rcases List.mem_cons.mp hgrow with h1 | h2
          · rw [h1]; exact hdate
          · rcases List.mem_cons.mp h2 with h3 | h4
            · rw [h3]; exact hval
            · cases h4
    · cases hto : (QueryRewriter.rewrite fz intent cand).text_ops with
      | none => rw [hto] at htext; cases htext
      | some t =>
        rw [hto] at htext
        rcases List.mem_cons.mp htext with h1 | h2
        · rw [h1]
          exact buildTextOps_mem intent _ cand.types cand.columns hRv hwf t hto
        · cases h2
  · obtain ⟨s, hss, hsc⟩ := List.mem_map.mp hsort
    rw [← hsc]
    exact buildSort_mem intent _ cand.types cand.columns hRv hwf s hss

/-- C1 witness: a candidate with one column of each kind and an intent that
exercises every block; the sales column the plan mentions is a candidate
column. -/
theorem rewrite_plan_columns_exist_witness :
    "销售额" ∈ (["地区", "日期", "销售额", "评论"] : List String) :=
  rewrite_plan_columns_exist (fun _ _ => [])
    (fun _ _ c hc => absurd hc (List.not_mem_nil c))
    (IntentParser.parse "按地区统计销售额总和排名前5的增长趋势和评论关键词")
    ⟨"f.xlsx", "s", ["地区", "日期", "销售额", "评论"],
      [("地区", "categorical"), ("日期", "date"), ("销售额", "numeric"),
        ("评论", "text")]⟩
    (by decide) "销售额" (by decide)

/-- C6: with `is_growth` set and a growth spec present, the plan's growth
block is present exactly when both the date-column cascade and the
value-column cascade yield a truthy (non-empty) column; otherwise the block
is omitted entirely — a `PlanGrowth` record always carries both columns, so
no partial block can occur. -/
theorem rewrite_growth_all_or_nothing (fz : String → List String → List String)
    (intent : Intent) (cand : Candidate) (gs : GrowthSpec)
    (h1 : intent.is_growth = true) (h2 : intent.growth = some gs) :
    (QueryRewriter.rewrite fz intent cand).growth.isSome = true
      ↔ (optTruthy (QueryRewriter.dateColResolve
            (QueryRewriter.resolve_columns fz
              (QueryRewriter.resolutionKeywords intent) cand.columns
              cand.types) cand.types) = true
        ∧ optTruthy (QueryRewriter.growthValueResolve
            (QueryRewriter.resolve_columns fz
              (QueryRewriter.resolutionKeywords intent) cand.columns
              cand.types) cand.types) = true) := by
  have hg : (QueryRewriter.rewrite fz intent cand).growth
      = QueryRewriter.buildGrowth intent
          (QueryRewriter.resolve_columns fz
            (QueryRewriter.resolutionKeywords intent) cand.columns cand.types)
          cand.types := rfl
  rw [hg]
  unfold QueryRewriter.buildGrowth
  rw [h1, h2]
  simp only [Option.isSome_some, Bool.true_and, if_true]
  cases hd : QueryRewriter.dateColResolve
      (QueryRewriter.resolve_columns fz
        (QueryRewriter.resolutionKeywords intent) cand.columns cand.types)
      cand.types with
  | none => simp [optTruthy]
  | some dc =>
    cases hv : QueryRewriter.growthValueResolve
        (QueryRewriter.resolve_columns fz
          (QueryRewriter.resolutionKeywords intent) cand.columns cand.types)
        cand.types with
    | none => simp [optTruthy]
    | some vc =>
      show (if (decide (dc ≠ "") && decide (vc ≠ "")) = true then
          some (PlanGrowth.mk dc vc gs.growth_type) else none).isSome = true
        ↔ optTruthy (some dc) = true ∧ optTruthy (some vc) = true
      by_cases hne : (decide (dc ≠ "") && decide (vc ≠ "")) = true
      · rw [if_pos hne]
        rw [Bool.and_eq_true, decide_eq_true_iff, decide_eq_true_iff] at hne
        simp [optTruthy, hne.1, hne.2]
      · rw [if_neg hne]
        rw [Bool.and_eq_true] at hne
        simp only [Option.isSome_none, Bool.false_eq_true, false_iff]
        intro hcon
        apply hne
        simp only [optTruthy] at hcon
        constructor
        · rw [decide_eq_true_iff]
          intro hdc
          rw [hdc] at hcon
          simp at hcon
        · rw [decide_eq_true_iff]
          intro hvc
          rw [hvc] at hcon
          simp at hcon

/-- C6 witness: growth intent against a candidate having a date and a
numeric column; the growth block is present. -/
theorem rewrite_growth_all_or_nothing_witness :
    (QueryRewriter.rewrite (fun _ _ => [])
      { Intent.default "growth" "en" with
        is_growth := true
        growth := some ⟨"date", "value", "yoy"⟩ }
      ⟨"f.xlsx", "s", ["d", "v"],
        [("d", "date"), ("v", "numeric")]⟩).growth.isSome = true :=
  (rewrite_growth_all_or_nothing (fun _ _ => [])
    { Intent.default "growth" "en" with
      is_growth := true
      growth := some ⟨"date", "value", "yoy"⟩ }
    ⟨"f.xlsx", "s", ["d", "v"], [("d", "date"), ("v", "numeric")]⟩
    ⟨"date", "value", "yoy"⟩ rfl rfl).mpr ⟨by decide, by decide⟩

/-! ## Theorems about the retriever's filtering -/

/-- Membership is invariant under `insertBy`. -/
theorem mem_insertBy {α : Type} (le : α → α → Bool) (a x : α) (l : List α) :
    x ∈ insertBy le a l ↔ x = a ∨ x ∈ l := by
  induction l with
  | nil => simp [insertBy]
  | cons b bs ih =>
    unfold insertBy
    split
    · simp [List.mem_cons]
    · rw [List.mem_cons, ih, List.mem_cons]
      tauto

/-- Membership is invariant under `sortBy`. -/
theorem mem_sortBy {α : Type} (le : α → α → Bool) (x : α) (l : List α) :
    x ∈ sortBy le l ↔ x ∈ l := by
  induction l with
  | nil => simp [sortBy]
  | cons a as ih =>
    unfold sortBy
    rw [mem_insertBy, ih, List.mem_cons]

/-- A file name passing a singleton allow-list equals the allowed name. -/
theorem passesFilters_allow_singleton (f fn : String)
    (dis : Option (List String))
    (h : RAGRetriever.passesFilters (some [f]) dis fn = true) : fn = f := by
  unfold RAGRetriever.passesFilters at h
  rw [Bool.and_eq_true] at h
  obtain ⟨h1, -⟩ := h
  simp only [listTruthy, Option.getD_some, List.isEmpty_cons, Bool.not_false,
    Bool.true_and, Bool.not_not] at h1
  have hm := List.elem_iff.mp h1
  simpa using hm

/-- A successfully scored candidate under a singleton allow-list carries
that file name. -/
theorem scoreCandidate_allow_singleton (q f : String)
    (dis : Option (List String)) (dist : ℚ) (m : DocMeta) (c : RagCandidate)
    (h : RAGRetriever.scoreCandidate q (some [f]) dis dist m = some c) :
    c.file_name = f := by
  unfold RAGRetriever.scoreCandidate at h
  by_cases hp : RAGRetriever.passesFilters (some [f]) dis m.file_name = true
  · rw [if_pos hp] at h
    have hc : c.file_name = m.file_name := by
      cases h
      rfl
    rw [hc]
    exact passesFilters_allow_singleton f m.file_name dis hp
  · rw [if_neg hp] at h
    cases h

/-- If `mapM` over `Option` succeeds, every output element is the image of
some input element. -/
theorem mapM_option_mem {α β : Type} (g : α → Option β) :
    ∀ (l : List α) (out : List β), l.mapM g = some out →
      ∀ b ∈ out, ∃ a ∈ l, g a = some b := by
  intro l
  induction l with
  | nil =>
    intro out h b hb
    rw [List.mapM_nil] at h
    cases h
    cases hb
  | cons a t ih =>
    intro out h b hb
    rw [List.mapM_cons] at h
    cases hga : g a with
    | none => rw [hga] at h; cases h
    | some ga =>
      rw [hga] at h
      cases hgt : t.mapM g with
      | none => rw [hgt] at h; cases h
      | some gt =>
        rw [hgt] at h
        cases h
        rcases List.mem_cons.mp hb with hb1 | hbt
        · subst hb1
          exact ⟨a, List.mem_cons_self a t, hga⟩
        · obtain ⟨x, hx, hgx⟩ := ih gt hgt b hbt
          exact ⟨x, List.mem_cons_of_mem a hx, hgx⟩

/-- C5: with a singleton `allow_files = [f]`, every candidate `search`
returns has file name `f`; filtering happens before scoring, so nothing
else can leak into the result. -/
theorem search_allow_singleton (state : RetrieverState) (q : String)
    (topK : Nat) (f : String) (disallowFiles : Option (List String))
    (neighbors : List (ℚ × Nat)) (res : List RagCandidate)
    (hs : RAGRetriever.search state q topK (some [f]) disallowFiles neighbors
      = some res) :
    ∀ c ∈ res, c.file_name = f := by
  intro c hc
  unfold RAGRetriever.search at hs
  cases hL : state.loaded with
  | false =>
    rw [hL] at hs
    simp at hs
    subst hs
    cases hc
  | true =>
    rw [hL] at hs
    simp only [Bool.not_true, Bool.false_eq_true, if_false] at hs
    cases hM : neighbors.mapM
        (fun p => (state.docMetadata[p.2]?).map ((p.1, ·))) with
    | none => rw [hM] at hs; cases hs
    | some metas =>
      rw [hM] at hs
      simp only [Option.some.injEq] at hs
      subst hs
      have hc1 := List.mem_of_mem_take hc
      rw [mem_sortBy] at hc1
      rw [List.mem_filterMap] at hc1
      obtain ⟨⟨dist, m⟩, _, hsc⟩ := hc1
      exact scoreCandidate_allow_singleton q f disallowFiles dist m c hsc

/-- C5 witness: a one-document index, allow-list restricted to its file;
the candidate's score fields are spelled as `search` computes them. -/
theorem search_allow_singleton_witness :
    (RagCandidate.mk "f.xlsx" "s"
      ((1 - 0) * (1 + RAGRetriever.compute_field_coverage "sum" [])
        * RAGRetriever.dateScore "sum" "" * RAGRetriever.numericBonus "sum" [])
      (1 - 0) (RAGRetriever.compute_field_coverage "sum" [])
      [] [] 0 0 "" "").file_name = "f.xlsx" :=
  search_allow_singleton
    ⟨true, [⟨"f.xlsx", "s", [], [], 0, "", ""⟩]⟩ "sum" 3 "f.xlsx" none
    [((0 : ℚ), 0)]
    [RagCandidate.mk "f.xlsx" "s"
      ((1 - 0) * (1 + RAGRetriever.compute_field_coverage "sum" [])
        * RAGRetriever.dateScore "sum" "" * RAGRetriever.numericBonus "sum" [])
      (1 - 0) (RAGRetriever.compute_field_coverage "sum" [])
      [] [] 0 0 "" ""]
    (by rfl)
    (RagCandidate.mk "f.xlsx" "s"
      ((1 - 0) * (1 + RAGRetriever.compute_field_coverage "sum" [])
        * RAGRetriever.dateScore "sum" "" * RAGRetriever.numericBonus "sum" [])
      (1 - 0) (RAGRetriever.compute_field_coverage "sum" [])
      [] [] 0 0 "" "")
    (by simp)

/-- C9: `search` yields an empty candidate list — with no exception — when
the index is not loaded, when the neighbor lookup is empty (as with an
empty index), or when every neighbor is dropped by the allow/disallow
filters. -/
theorem search_empty_cases (state : RetrieverState) (q : String) (topK : Nat)
    (allowFiles disallowFiles : Option (List String))
    (neighbors : List (ℚ × Nat))
    (h : state.loaded = false ∨ neighbors = []
      ∨ ∀ p ∈ neighbors, ∃ m, state.docMetadata[p.2]? = some m
          ∧ RAGRetriever.passesFilters allowFiles disallowFiles m.file_name
            = false) :
    RAGRetriever.search state q topK allowFiles disallowFiles neighbors
      = some [] := by
  unfold RAGRetriever.search
  rcases h with h | h | h
  · rw [h]
    rfl
  · subst h
    cases hL : state.loaded
    · rfl
    · simp only [Bool.not_true, Bool.false_eq_true, if_false]
      have hm : (([] : List (ℚ × Nat)).mapM
          (fun p => (state.docMetadata[p.2]?).map ((p.1, ·)))) = some [] := rfl
      rw [hm]
      simp [sortBy]
  · cases hL : state.loaded
    · rfl
    · simp only [Bool.not_true, Bool.false_eq_true, if_false]
      have key : ∀ (ns : List (ℚ × Nat)),
          (∀ p ∈ ns, ∃ m, state.docMetadata[p.2]? = some m
            ∧ RAGRetriever.passesFilters allowFiles disallowFiles m.file_name
              = false) →
          ∃ metas, ns.mapM
              (fun p => (state.docMetadata[p.2]?).map ((p.1, ·))) = some metas
            ∧ metas.filterMap (fun pm =>
                RAGRetriever.scoreCandidate q allowFiles disallowFiles
                  pm.1 pm.2) = [] := by
        intro ns
        induction ns with
        | nil => exact fun _ => ⟨[], rfl, rfl⟩
        | cons p t ih =>
          intro hall
          obtain ⟨m, hm, hpass⟩ := hall p (List.mem_cons_self p t)
          obtain ⟨metas, hmetas, hfm⟩ :=
            ih (fun x hx => hall x (List.mem_cons_of_mem p hx))
          refine ⟨(p.1, m) :: metas, ?_, ?_⟩
          · rw [List.mapM_cons, hm, hmetas]
            rfl
          · simp only [List.filterMap_cons]
            have hsc : RAGRetriever.scoreCandidate q allowFiles disallowFiles
                p.1 m = none := by
              unfold RAGRetriever.scoreCandidate
              rw [hpass]
              rfl
            rw [hsc, hfm]
      obtain ⟨metas, hmetas, hfm⟩ := key neighbors h
      rw [hmetas]
      simp [hfm, sortBy]

/-- C9 witness: loaded one-document index whose single neighbor is dropped
by the disallow filter. -/
theorem search_empty_cases_witness :
    RAGRetriever.search ⟨true, [⟨"f.xlsx", "s", [], [], 0, "", ""⟩]⟩ "" 3
      none (some ["f.xlsx"]) [((0 : ℚ), 0)] = some [] :=
  search_empty_cases ⟨true, [⟨"f.xlsx", "s", [], [], 0, "", ""⟩]⟩ "" 3
    none (some ["f.xlsx"]) [((0 : ℚ), 0)]
    (Or.inr (Or.inr (by
      intro p hp
      refine ⟨⟨"f.xlsx", "s", [], [], 0, "", ""⟩, ?_, ?_⟩
      · simp at hp
        rw [hp]
        rfl
      · rfl)))

/-! ## Theorems about the retriever's date bonus -/

/-- C4 counterexample: the question "top SKUs in 2022" carries the 4-digit
year literal 2022, which also appears in the candidate's date range, yet the
code's date factor is 1.0 (not 1.2): only 2023/2024/2025 are hard-coded.
`specDateBonus` is the bonus as the spec words it. -/
theorem dateScore_any_year_counterexample :
    RAGRetriever.dateScore "top SKUs in 2022" "2022-01-01 ~ 2022-12-31" = 1
    ∧ RAGRetriever.specDateBonus "top SKUs in 2022" "2022-01-01 ~ 2022-12-31"
      = 6 / 5 := by
  exact ⟨by rfl, by rfl⟩

/-- C4 amended: the date-bonus factor is 1.2 exactly when one of the three
hard-coded year literals "2023", "2024", "2025" occurs both in the question
and in the candidate's recorded date range, and 1.0 otherwise. -/
theorem dateScore_hardcoded_years (q dr : String) :
    RAGRetriever.dateScore q dr =
      if (strContains q "2023" && strContains dr "2023")
          || (strContains q "2024" && strContains dr "2024")
          || (strContains q "2025" && strContains dr "2025") then 6 / 5
      else 1 := by
  unfold RAGRetriever.dateScore
  by_cases hdr : dr = ""
  · subst hdr
    have e3 : strContains "" "2023" = false := rfl
    have e4 : strContains "" "2024" = false := rfl
    have e5 : strContains "" "2025" = false := rfl
    simp [e3, e4, e5]
  · cases h3q : strContains q "2023" <;> cases h4q : strContains q "2024" <;>
      cases h5q : strContains q "2025" <;> cases h3d : strContains dr "2023" <;>
      cases h4d : strContains dr "2024" <;> cases h5d : strContains dr "2025" <;>
      simp [hdr, h3q, h4q, h5q, h3d, h4d, h5d]

end ExcelAgent
